import Mathlib

/-!
Verification of the PyDominantColor specification against its source.

The repository's single source file, `src/dominantcolor.c`, is a CPython
binding: it declares `FromImage`, defines the shim `PyArg_ParseTuple_S`,
the method table `DominantColorMethods` and the module-init function
`initdominantcolor`.  The dominant-color engine itself
(`ExtractDominantColor`) is not present in the repository; the
specification describes it in full (data model, algorithm, error
conditions), so it is modelled here from the spec's words.  The static
structure of the C file is embedded directly.
-/

namespace DominantColor

/-! ## Data model (spec §3), modelled from the spec -/

/-- Modelled from the spec: a Pixel is a triple of 8-bit channel
intensities (R, G, B) with an alpha channel used only to exclude
pixels from consideration. -/
structure Pixel where
  r : Fin 256
  g : Fin 256
  b : Fin 256
  a : Fin 256
deriving DecidableEq, Repr

/-- Modelled from the spec: a PixelBuffer is an ordered sequence of
Pixels plus width and height. -/
structure PixelBuffer where
  pixels : List Pixel
  width : Nat
  height : Nat
deriving DecidableEq, Repr

/-- Modelled from the spec: the extraction configuration, with
`quantizationBits` (default 5) and `ignoreAlphaBelow` (default 0). -/
structure Config where
  quantizationBits : Nat
  ignoreAlphaBelow : Nat
deriving DecidableEq, Repr

/-- Modelled from the spec: the default configuration
(`quantizationBits = 5`, `ignoreAlphaBelow = 0`). -/
def defaultConfig : Config := { quantizationBits := 5, ignoreAlphaBelow := 0 }

/-- Modelled from the spec: the Result is a single RGB triple. -/
structure Result where
  r : Nat
  g : Nat
  b : Nat
deriving DecidableEq, Repr

/-- Modelled from the spec: the error kinds of `ExtractDominantColor`
(`DecodeError` belongs to the out-of-scope decoder collaborator). -/
inductive ExtractError where
  | EmptyInputError
  | InvalidConfigError
deriving DecidableEq, Repr

/-! ## The extraction algorithm (spec §4.1), modelled from the spec -/

/-- Modelled from the spec: a pixel is excluded when its alpha is
strictly below `ignoreAlphaBelow`; otherwise it is eligible. -/
def eligible (cfg : Config) (p : Pixel) : Bool :=
  decide (cfg.ignoreAlphaBelow ≤ p.a.val)

/-- Modelled from the spec: truncate a channel to its `q`
most-significant bits. -/
def quantizeChannel (q c : Nat) : Nat := c / 2 ^ (8 - q)

/-- Modelled from the spec: the numeric bucket key of a pixel, packing
the three quantized channels (R highest) into one number. -/
def bucketKey (q : Nat) (p : Pixel) : Nat :=
  quantizeChannel q p.r.val * 2 ^ (2 * q) +
    quantizeChannel q p.g.val * 2 ^ q + quantizeChannel q p.b.val

/-- Modelled from the spec: the list of bucket keys of the
non-excluded pixels, in buffer order (step 1 of the algorithm);
bucket counts are occurrence counts in this list (step 2). -/
def keysOf (cfg : Config) (buf : PixelBuffer) : List Nat :=
  (buf.pixels.filter (eligible cfg)).map (bucketKey cfg.quantizationBits)

/-- Modelled from the spec: of two bucket keys, keep the one with the
higher count; on equal counts keep the numerically smaller key
(step 3's tie-break). -/
def pickBucket (keys : List Nat) (b k : Nat) : Nat :=
  if keys.count b < keys.count k ∨ (keys.count k = keys.count b ∧ k < b) then k else b

/-- Modelled from the spec: select the bucket with the highest count,
ties broken toward the numerically smallest key; `none` when there is
no bucket at all (step 3). -/
def selectBucket (keys : List Nat) : Option Nat :=
  match keys.dedup with
  | [] => none
  | k :: ks => some (ks.foldl (pickBucket keys) k)

/-- Modelled from the spec: expand one quantized channel back to the
midpoint of its quantization range (step 4). -/
def midpoint (q k : Nat) : Nat := k * 2 ^ (8 - q) + 2 ^ (8 - q) / 2

/-- Modelled from the spec: expand a winning bucket key back to a
representative RGB color, midpoint per channel (steps 4-5). -/
def expandKey (q key : Nat) : Result :=
  { r := midpoint q (key / 2 ^ (2 * q)),
    g := midpoint q (key / 2 ^ q % 2 ^ q),
    b := midpoint q (key % 2 ^ q) }

/-- Modelled from the spec: `quantizationBits` must lie in [1,8]. -/
def validBits (q : Nat) : Bool := 1 ≤ q && q ≤ 8

/-- Modelled from the spec: `ExtractDominantColor(buffer, config)`,
the missing engine this repository's binding exposes.  Fails with
`InvalidConfigError` when `quantizationBits` is outside [1,8], with
`EmptyInputError` when no pixel survives the alpha filter, and
otherwise returns the midpoint expansion of the winning bucket. -/
def ExtractDominantColor (buf : PixelBuffer) (cfg : Config) :
    Except ExtractError Result :=
  if validBits cfg.quantizationBits then
    match selectBucket (keysOf cfg buf) with
    | none => .error .EmptyInputError
    | some key => .ok (expandKey cfg.quantizationBits key)
  else .error .InvalidConfigError

/-- The bucket key of a returned Result's color, for quantized
comparison of colors (spec §8, scenario property). -/
def resultKey (q : Nat) (res : Result) : Nat :=
  quantizeChannel q res.r * 2 ^ (2 * q) +
    quantizeChannel q res.g * 2 ^ q + quantizeChannel q res.b

/-- Key `k` is at most as good as key `w` for the selection of step 3:
either its count is strictly smaller, or the counts are equal and `w`
is the numerically smaller (or same) key. -/
def bestLE (keys : List Nat) (k w : Nat) : Prop :=
  keys.count k < keys.count w ∨ (keys.count k = keys.count w ∧ w ≤ k)

/-! ## Static structure of `src/dominantcolor.c` -/

/-- A `PyMethodDef` entry of the method table in `src/dominantcolor.c`;
`none` fields render the `NULL` sentinel values. `ml_meth` holds the
name of the C function the entry points to. -/
structure PyMethodDef where
  ml_name : Option String
  ml_meth : Option String
  ml_flags : Nat
  ml_doc : Option String
deriving DecidableEq, Repr

/-- CPython's `METH_VARARGS` flag value. -/
def METH_VARARGS : Nat := 1

/-- The method table `DominantColorMethods` of `src/dominantcolor.c`,
lines 12-15: one real entry (`FromImage`) and the `NULL` sentinel. -/
def DominantColorMethods : List PyMethodDef :=
  [ { ml_name := some "FromImage", ml_meth := some "FromImage",
      ml_flags := METH_VARARGS,
      ml_doc := some "Given an image file URI it returns the dominant color of the image." },
    { ml_name := none, ml_meth := none, ml_flags := 0, ml_doc := none } ]

/-- A module registration performed through `Py_InitModule`. -/
structure ModuleRegistration where
  moduleName : String
  methods : List PyMethodDef
deriving DecidableEq, Repr

/-- Model of CPython's `Py_InitModule`: registers a method table under
a module name. -/
def Py_InitModule (name : String) (methods : List PyMethodDef) :
    ModuleRegistration :=
  { moduleName := name, methods := methods }

/-- `initdominantcolor` of `src/dominantcolor.c`, lines 17-20:
registers `DominantColorMethods` as module `dominantcolor`. -/
def initdominantcolor : ModuleRegistration :=
  Py_InitModule "dominantcolor" DominantColorMethods

/-- Whether a C top-level symbol is only declared or also defined. -/
inductive CDeclKind where
  | declarationOnly
  | definition
deriving DecidableEq, Repr

/-- A top-level declaration of a C translation unit: its name, whether
the file defines it, and whether it is a function (as opposed to a
data object such as an array). -/
structure CFileDecl where
  name : String
  kind : CDeclKind
  isFunction : Bool
deriving DecidableEq, Repr

/-- The top-level declarations of `src/dominantcolor.c`, in file
order: `FromImage` (line 4, declaration only), `PyArg_ParseTuple_S`
(lines 8-10, defined function), `DominantColorMethods` (lines 12-15,
defined data), `initdominantcolor` (lines 17-20, defined function). -/
def dominantcolorDecls : List CFileDecl :=
  [ { name := "FromImage", kind := .declarationOnly, isFunction := true },
    { name := "PyArg_ParseTuple_S", kind := .definition, isFunction := true },
    { name := "DominantColorMethods", kind := .definition, isFunction := false },
    { name := "initdominantcolor", kind := .definition, isFunction := true } ]

/-! ## The argument-parsing shim -/

/-- A host-runtime object, as far as the shim's behavior depends on
it: a string, a tuple of objects, or anything else. -/
inductive PyObj where
  | str : String → PyObj
  | tuple : List PyObj → PyObj
  | other

/-- Modelled from the spec: the host runtime's argument-parsing
utility (`PyArg_ParseTuple`), external to this repository, restricted
to the only format string this file uses.  With format `"s"` it
succeeds exactly when `args` is a tuple of exactly one
string-convertible object, yielding that string (the value stored
through the output pointer); every other format is unused here and
modelled as failing. -/
def PyArg_ParseTuple (args : PyObj) (fmt : String) : Option String :=
  if fmt = "s" then
    match args with
    | .tuple [.str v] => some v
    | _ => none
  else none

/-- `PyArg_ParseTuple_S` of `src/dominantcolor.c`, lines 8-10: the
variadic-workaround shim, forwarding to `PyArg_ParseTuple` with the
fixed format string `"s"`. -/
def PyArg_ParseTuple_S (args : PyObj) : Option String :=
  PyArg_ParseTuple args "s"

/-- The red pixel (255,0,0), opaque, of the spec's scenario. -/
def redPixel : Pixel := { r := 255, g := 0, b := 0, a := 255 }

/-- The blue pixel (0,0,255), opaque, of the spec's scenario. -/
def bluePixel : Pixel := { r := 0, g := 0, b := 255, a := 255 }

deriving instance DecidableEq for Except

/-! ## Helper lemmas -/

lemma validBits_iff {q : Nat} : validBits q = true ↔ 1 ≤ q ∧ q ≤ 8 := by
  simp [validBits]

lemma bestLE_refl (keys : List Nat) (k : Nat) : bestLE keys k k :=
  Or.inr ⟨rfl, le_refl k⟩

lemma bestLE_trans {keys : List Nat} {j x y : Nat} (h1 : bestLE keys j x)
    (h2 : bestLE keys x y) : bestLE keys j y := by
  unfold bestLE at *
  omega

lemma pickBucket_mem (keys : List Nat) (b k : Nat) :
    pickBucket keys b k = b ∨ pickBucket keys b k = k := by
  unfold pickBucket
  split
  · exact Or.inr rfl
  · exact Or.inl rfl

lemma bestLE_pickBucket_left (keys : List Nat) (b k : Nat) :
    bestLE keys b (pickBucket keys b k) := by
  unfold pickBucket
  split
  · unfold bestLE; omega
  · exact bestLE_refl keys b

lemma bestLE_pickBucket_right (keys : List Nat) (b k : Nat) :
    bestLE keys k (pickBucket keys b k) := by
  unfold pickBucket
  split
  · exact bestLE_refl keys k
  · unfold bestLE; omega

lemma foldl_pickBucket_mem (keys : List Nat) :
    ∀ (ks : List Nat) (b : Nat),
      ks.foldl (pickBucket keys) b = b ∨ ks.foldl (pickBucket keys) b ∈ ks := by
  intro ks
  induction ks with
  | nil => intro b; exact Or.inl rfl
  | cons k ks ih =>
      intro b
      rw [List.foldl_cons]
      rcases ih (pickBucket keys b k) with h | h
      · rcases pickBucket_mem keys b k with hb | hk
        · exact Or.inl (h.trans hb)
        · exact Or.inr (by rw [h, hk]; exact List.mem_cons_self k ks)
      · exact Or.inr (List.mem_cons_of_mem k h)

lemma foldl_pickBucket_bestLE (keys : List Nat) :
    ∀ (ks : List Nat) (b j : Nat), (j = b ∨ j ∈ ks) →
      bestLE keys j (ks.foldl (pickBucket keys) b) := by
  intro ks
  induction ks with
  | nil =>
      intro b j hj
      rcases hj with rfl | h
      · exact bestLE_refl keys j
      · cases h
  | cons k ks ih =>
      intro b j hj
      rw [List.foldl_cons]
      rcases hj with rfl | hj
      · exact bestLE_trans (bestLE_pickBucket_left keys j k)
          (ih (pickBucket keys j k) _ (Or.inl rfl))
      · rcases List.mem_cons.mp hj with rfl | hj
        · exact bestLE_trans (bestLE_pickBucket_right keys b j)
            (ih (pickBucket keys b j) _ (Or.inl rfl))
        · exact ih (pickBucket keys b k) j (Or.inr hj)

lemma selectBucket_eq_none_iff (keys : List Nat) :
    selectBucket keys = none ↔ keys = [] := by
  unfold selectBucket
  cases h : keys.dedup with
  | nil => simpa using (List.dedup_eq_nil keys).mp h
  | cons k ks =>
      simp only [reduceCtorEq, false_iff]
      intro hk
      rw [hk] at h
      simp at h

lemma selectBucket_mem {keys : List Nat} {w : Nat}
    (h : selectBucket keys = some w) : w ∈ keys := by
  unfold selectBucket at h
  cases hd : keys.dedup with
  | nil => rw [hd] at h; cases h
  | cons k ks =>
      rw [hd] at h
      have hw : ks.foldl (pickBucket keys) k = w := by
        simpa using h
      have : w ∈ k :: ks := by
        rcases foldl_pickBucket_mem keys ks k with h1 | h1
        · rw [hw] at h1; rw [h1]; exact List.mem_cons_self k ks
        · rw [hw] at h1; exact List.mem_cons_of_mem k h1
      rw [← hd] at this
      exact List.mem_dedup.mp this

lemma selectBucket_best {keys : List Nat} {w : Nat}
    (h : selectBucket keys = some w) : ∀ k ∈ keys, bestLE keys k w := by
  intro k hk
  unfold selectBucket at h
  cases hd : keys.dedup with
  | nil => rw [hd] at h; cases h
  | cons k0 ks =>
      rw [hd] at h
      have hw : ks.foldl (pickBucket keys) k0 = w := by
        simpa using h
      have hkd : k ∈ k0 :: ks := by
        rw [← hd]; exact List.mem_dedup.mpr hk
      rw [← hw]
      exact foldl_pickBucket_bestLE keys ks k0 k (List.mem_cons.mp hkd)

lemma keysOf_eq_nil_iff (cfg : Config) (buf : PixelBuffer) :
    keysOf cfg buf = [] ↔ ∀ p ∈ buf.pixels, p.a.val < cfg.ignoreAlphaBelow := by
  unfold keysOf
  rw [List.map_eq_nil_iff, List.filter_eq_nil_iff]
  simp [eligible, Nat.not_le]

lemma two_pow_mul_two_pow_sub (q : Nat) (hq : q ≤ 8) :
    2 ^ q * 2 ^ (8 - q) = 256 := by
  rw [← pow_add]
  have h : q + (8 - q) = 8 := by omega
  rw [h]
  norm_num

lemma quantizeChannel_lt {q c : Nat} (hq : q ≤ 8) (hc : c < 256) :
    quantizeChannel q c < 2 ^ q := by
  unfold quantizeChannel
  rw [Nat.div_lt_iff_lt_mul (pow_pos (by norm_num) _)]
  rw [two_pow_mul_two_pow_sub q hq]
  exact hc

lemma unpack_b (q qr qg qb : Nat) (hb : qb < 2 ^ q) :
    (qr * 2 ^ (2 * q) + qg * 2 ^ q + qb) % 2 ^ q = qb := by
  have h : qr * 2 ^ (2 * q) + qg * 2 ^ q + qb
      = 2 ^ q * (qr * 2 ^ q + qg) + qb := by
    rw [two_mul, pow_add]; ring
  rw [h, Nat.mul_add_mod, Nat.mod_eq_of_lt hb]

lemma unpack_div (q qr qg qb : Nat) (hb : qb < 2 ^ q) :
    (qr * 2 ^ (2 * q) + qg * 2 ^ q + qb) / 2 ^ q = qr * 2 ^ q + qg := by
  have h : qr * 2 ^ (2 * q) + qg * 2 ^ q + qb
      = 2 ^ q * (qr * 2 ^ q + qg) + qb := by
    rw [two_mul, pow_add]; ring
  rw [h, Nat.mul_add_div (pow_pos (by norm_num) _), Nat.div_eq_of_lt hb, Nat.add_zero]

lemma unpack_g (q qr qg qb : Nat) (hg : qg < 2 ^ q) (hb : qb < 2 ^ q) :
    (qr * 2 ^ (2 * q) + qg * 2 ^ q + qb) / 2 ^ q % 2 ^ q = qg := by
  rw [unpack_div q qr qg qb hb]
  have h : qr * 2 ^ q + qg = 2 ^ q * qr + qg := by ring
  rw [h, Nat.mul_add_mod, Nat.mod_eq_of_lt hg]

lemma unpack_r (q qr qg qb : Nat) (hg : qg < 2 ^ q) (hb : qb < 2 ^ q) :
    (qr * 2 ^ (2 * q) + qg * 2 ^ q + qb) / 2 ^ (2 * q) = qr := by
  have h2 : (2 : Nat) ^ (2 * q) = 2 ^ q * 2 ^ q := by
    rw [two_mul, pow_add]
  rw [h2, ← Nat.div_div_eq_div_mul, ← h2, unpack_div q qr qg qb hb]
  have h : qr * 2 ^ q + qg = 2 ^ q * qr + qg := by ring
  rw [h, Nat.mul_add_div (pow_pos (by norm_num) _), Nat.div_eq_of_lt hg, Nat.add_zero]

lemma expandKey_bucketKey {q : Nat} (hq : q ≤ 8) (p : Pixel) :
    expandKey q (bucketKey q p) =
      { r := midpoint q (quantizeChannel q p.r.val),
        g := midpoint q (quantizeChannel q p.g.val),
        b := midpoint q (quantizeChannel q p.b.val) } := by
  have hg := quantizeChannel_lt hq p.g.isLt
  have hb := quantizeChannel_lt hq p.b.isLt
  unfold expandKey bucketKey
  rw [unpack_r q _ _ _ hg hb, unpack_g q _ _ _ hg hb, unpack_b q _ _ _ hb]

lemma midpoint_le_aux (s t : Nat) (hs : 0 < s) (hs2 : s ≤ 256)
    (ht : t ≤ 256 - s) : t + s / 2 ≤ 255 := by omega

lemma midpoint_le {q k : Nat} (hq : q ≤ 8) (hk : k < 2 ^ q) :
    midpoint q k ≤ 255 := by
  have hs : 0 < 2 ^ (8 - q) := pow_pos (by norm_num) _
  have hs2 : 2 ^ (8 - q) ≤ 256 := by
    calc 2 ^ (8 - q) ≤ 2 ^ 8 := Nat.pow_le_pow_right (by norm_num) (by omega)
    _ = 256 := by norm_num
  have h1 : k * 2 ^ (8 - q) ≤ (2 ^ q - 1) * 2 ^ (8 - q) :=
    Nat.mul_le_mul_right _ (by omega)
  have h2 : (2 ^ q - 1) * 2 ^ (8 - q) = 256 - 2 ^ (8 - q) := by
    rw [Nat.sub_mul, one_mul, two_pow_mul_two_pow_sub q hq]
  rw [h2] at h1
  unfold midpoint
  exact midpoint_le_aux (2 ^ (8 - q)) (k * 2 ^ (8 - q)) hs hs2 h1

lemma dist_mid_aux (s d m : Nat) (hs : 0 < s) (hm : m < s) :
    Nat.dist (d * s + s / 2) (d * s + m) < s := by
  rw [Nat.dist]
  generalize d * s = e
  omega

lemma midpoint_quantize_dist (q c : Nat) :
    Nat.dist (midpoint q (quantizeChannel q c)) c < 2 ^ (8 - q) := by
  have hs : 0 < 2 ^ (8 - q) := pow_pos (by norm_num) _
  have hmod : c % 2 ^ (8 - q) < 2 ^ (8 - q) := Nat.mod_lt _ hs
  have h := dist_mid_aux (2 ^ (8 - q)) (c / 2 ^ (8 - q)) (c % 2 ^ (8 - q)) hs hmod
  rw [Nat.div_add_mod'] at h
  unfold midpoint quantizeChannel
  exact h

lemma nodup_all_eq_singleton {l : List Nat} {k : Nat} (hn : l.Nodup)
    (hne : l ≠ []) (hall : ∀ x ∈ l, x = k) : l = [k] := by
  match l with
  | [] => exact absurd rfl hne
  | [x] => rw [hall x (List.mem_singleton.mpr rfl)]
  | x :: y :: t =>
      have hx := hall x (by simp)
      have hy := hall y (by simp)
      rw [List.nodup_cons] at hn
      exact absurd (by rw [hx, ← hy]; exact List.mem_cons_self y t) hn.1

lemma extract_eq_ok {buf : PixelBuffer} {cfg : Config} {w : Nat}
    (hq : validBits cfg.quantizationBits = true)
    (hw : selectBucket (keysOf cfg buf) = some w) :
    ExtractDominantColor buf cfg = .ok (expandKey cfg.quantizationBits w) := by
  unfold ExtractDominantColor
  rw [hq, hw]
  rfl

lemma selectBucket_isSome {keys : List Nat} (h : keys ≠ []) :
    ∃ w, selectBucket keys = some w := by
  cases hs : selectBucket keys with
  | none => exact absurd ((selectBucket_eq_none_iff _).mp hs) h
  | some w => exact ⟨w, rfl⟩

/-! ## Claim theorems -/

/-- C2 (counterexample): as stated, the claim fails: the empty buffer
has no eligible pixels, yet with `quantizationBits = 0` the call fails
with `InvalidConfigError`, not `EmptyInputError` — config validation
takes precedence. -/
theorem extract_emptyInput_cex :
    (∀ p ∈ (PixelBuffer.mk [] 0 0).pixels,
      p.a.val < (Config.mk 0 0).ignoreAlphaBelow) ∧
    ExtractDominantColor ⟨[], 0, 0⟩ ⟨0, 0⟩ ≠ .error .EmptyInputError ∧
    ExtractDominantColor ⟨[], 0, 0⟩ ⟨0, 0⟩ = .error .InvalidConfigError := by
  decide

/-- C2 (amended): when `quantizationBits` is valid (in [1,8]),
`ExtractDominantColor` fails with `EmptyInputError` exactly when there
are no eligible pixels: the buffer has zero pixels, or every pixel is
excluded because its alpha is strictly below `ignoreAlphaBelow`. -/
theorem extract_emptyInput_iff (buf : PixelBuffer) (cfg : Config)
    (hq : validBits cfg.quantizationBits = true) :
    ExtractDominantColor buf cfg = .error .EmptyInputError ↔
      ∀ p ∈ buf.pixels, p.a.val < cfg.ignoreAlphaBelow := by
  unfold ExtractDominantColor
  rw [hq]
  rw [← keysOf_eq_nil_iff, ← selectBucket_eq_none_iff]
  cases h : selectBucket (keysOf cfg buf) <;> simp [h]

/-- C2 (witness): the empty buffer with the default (valid) config
fails with `EmptyInputError`. -/
theorem extract_emptyInput_iff_w :
    ExtractDominantColor ⟨[], 0, 0⟩ ⟨5, 0⟩ = .error .EmptyInputError :=
  (extract_emptyInput_iff ⟨[], 0, 0⟩ ⟨5, 0⟩ (by decide)).mpr (by simp)

/-- C3: for every buffer and config, `ExtractDominantColor` fails with
`InvalidConfigError` iff `quantizationBits` lies outside [1,8]; in
particular `quantizationBits = 0` and `quantizationBits = 9` both fail
with `InvalidConfigError`. -/
theorem extract_invalidConfig_iff (buf : PixelBuffer) (cfg : Config) :
    (ExtractDominantColor buf cfg = .error .InvalidConfigError ↔
      ¬ (1 ≤ cfg.quantizationBits ∧ cfg.quantizationBits ≤ 8)) ∧
    ExtractDominantColor buf
      { quantizationBits := 0, ignoreAlphaBelow := cfg.ignoreAlphaBelow }
      = .error .InvalidConfigError ∧
    ExtractDominantColor buf
      { quantizationBits := 9, ignoreAlphaBelow := cfg.ignoreAlphaBelow }
      = .error .InvalidConfigError := by
  refine ⟨?_, rfl, rfl⟩
  rw [← validBits_iff]
  unfold ExtractDominantColor
  cases h : validBits cfg.quantizationBits
  · simp
  · simp only [if_true]
    cases hs : selectBucket (keysOf cfg buf) <;> simp

/-- C3 (witness): at a concrete buffer, `quantizationBits = 0` fails
with `InvalidConfigError`. -/
theorem extract_invalidConfig_iff_w :
    ExtractDominantColor ⟨[], 0, 0⟩ ⟨0, 5⟩ = .error .InvalidConfigError :=
  (extract_invalidConfig_iff ⟨[], 0, 0⟩ ⟨5, 5⟩).2.1

/-- C6: `ExtractDominantColor` is deterministic — two calls on the
same buffer and config yield identical results; it is a pure function
of its inputs. -/
theorem extract_deterministic (b1 b2 : PixelBuffer) (c1 c2 : Config)
    (hb : b1 = b2) (hc : c1 = c2) :
    ExtractDominantColor b1 c1 = ExtractDominantColor b2 c2 := by
  rw [hb, hc]

/-- C6 (witness): two calls on a concrete buffer and config agree. -/
theorem extract_deterministic_w :
    ExtractDominantColor ⟨[redPixel], 1, 1⟩ defaultConfig
      = ExtractDominantColor ⟨[redPixel], 1, 1⟩ defaultConfig :=
  extract_deterministic ⟨[redPixel], 1, 1⟩ ⟨[redPixel], 1, 1⟩
    defaultConfig defaultConfig rfl rfl

/-- C7: on 4 pixels, 3 red (255,0,0) and 1 blue (0,0,255), with the
default config, `ExtractDominantColor` returns the color (252,4,4),
whose quantized bucket key equals the bucket key of red. -/
theorem extract_red_blue_scenario :
    ExtractDominantColor ⟨[redPixel, redPixel, redPixel, bluePixel], 4, 1⟩
      defaultConfig = .ok { r := 252, g := 4, b := 4 } ∧
    resultKey defaultConfig.quantizationBits { r := 252, g := 4, b := 4 }
      = bucketKey defaultConfig.quantizationBits redPixel :=
  ⟨rfl, rfl⟩

/-- C8: the binding file registers exactly one native function, named
`FromImage`, into the module `dominantcolor`, and beyond the
registration entry point the only function it defines is the
variadic-argument parsing shim `PyArg_ParseTuple_S`. -/
theorem binding_registers_only_fromImage :
    initdominantcolor.moduleName = "dominantcolor" ∧
    (initdominantcolor.methods.filter (fun m => m.ml_name.isSome)).map
      (fun m => m.ml_meth) = [some "FromImage"] ∧
    (dominantcolorDecls.filter
        (fun d => d.kind == CDeclKind.definition && d.isFunction
          && d.name != "initdominantcolor")).map (fun d => d.name)
      = ["PyArg_ParseTuple_S"] :=
  ⟨rfl, rfl, rfl⟩

/-- C9: `FromImage` is declared but never defined in the file, the
method table's only real entry points to it, so the file contains none
of the dominant-color computation. -/
theorem fromImage_declared_not_defined :
    (∀ d ∈ dominantcolorDecls,
      d.name = "FromImage" → d.kind = CDeclKind.declarationOnly) ∧
    CFileDecl.mk "FromImage" CDeclKind.declarationOnly true ∈ dominantcolorDecls ∧
    (DominantColorMethods.map (fun m => m.ml_meth)).head?
      = some (some "FromImage") := by
  refine ⟨by decide, by decide, rfl⟩

/-- C10: the shim returns exactly `PyArg_ParseTuple(args, "s", s)`:
the format string is the fixed `"s"`, it succeeds iff `args` is a
tuple of exactly one string-convertible object, and then yields that
string. -/
theorem parseTuple_shim_forwards (args : PyObj) :
    PyArg_ParseTuple_S args = PyArg_ParseTuple args "s" ∧
    ((PyArg_ParseTuple_S args).isSome ↔
      ∃ v, args = PyObj.tuple [PyObj.str v]) ∧
    ∀ v, args = PyObj.tuple [PyObj.str v] → PyArg_ParseTuple_S args = some v := by
  refine ⟨rfl, ?_, ?_⟩
  · unfold PyArg_ParseTuple_S PyArg_ParseTuple
    rw [if_pos rfl]
    match args with
    | .str s => simp
    | .other => simp
    | .tuple [] => simp
    | .tuple (.str v :: []) => simp
    | .tuple (.str v :: x :: xs) => simp
    | .tuple (.tuple l :: xs) => simp
    | .tuple (.other :: xs) => simp
  · intro v hv
    rw [hv]
    rfl

/-- C10 (witness): on a one-string tuple the shim succeeds with that
string. -/
theorem parseTuple_shim_forwards_w :
    PyArg_ParseTuple_S (PyObj.tuple [PyObj.str "uri"]) = some "uri" :=
  (parseTuple_shim_forwards (PyObj.tuple [PyObj.str "uri"])).2.2 "uri" rfl

/-- C1 (counterexample): as stated, the claim fails: a non-empty
buffer whose only pixel has alpha 0, under the valid config
`⟨5, 1⟩`, yields no Result at all — the call fails with
`EmptyInputError` because every pixel is excluded by the alpha
filter. -/
theorem extract_ok_channels_cex :
    (PixelBuffer.mk [⟨0, 0, 0, 0⟩] 1 1).pixels ≠ [] ∧
    validBits (Config.mk 5 1).quantizationBits = true ∧
    ExtractDominantColor ⟨[⟨0, 0, 0, 0⟩], 1, 1⟩ ⟨5, 1⟩
      = .error .EmptyInputError := by
  decide

/-- C1 (amended): for every buffer with at least one pixel not
excluded by the alpha filter, and any valid config,
`ExtractDominantColor` returns a Result whose R, G and B channel
values are each in [0,255] (lower bound implicit: channels are
naturals). -/
theorem extract_ok_channels (buf : PixelBuffer) (cfg : Config)
    (hq : validBits cfg.quantizationBits = true)
    (hne : buf.pixels.filter (eligible cfg) ≠ []) :
    ∃ res, ExtractDominantColor buf cfg = .ok res ∧
      res.r ≤ 255 ∧ res.g ≤ 255 ∧ res.b ≤ 255 := by
  have hq8 : cfg.quantizationBits ≤ 8 := (validBits_iff.mp hq).2
  have hkeys : keysOf cfg buf ≠ [] := by
    unfold keysOf
    simpa [List.map_eq_nil_iff] using hne
  obtain ⟨w, hw⟩ := selectBucket_isSome hkeys
  obtain ⟨p, hp, hpk⟩ := List.mem_map.mp (selectBucket_mem hw)
  refine ⟨expandKey cfg.quantizationBits w, extract_eq_ok hq hw, ?_⟩
  rw [← hpk, expandKey_bucketKey hq8 p]
  exact ⟨midpoint_le hq8 (quantizeChannel_lt hq8 p.r.isLt),
         midpoint_le hq8 (quantizeChannel_lt hq8 p.g.isLt),
         midpoint_le hq8 (quantizeChannel_lt hq8 p.b.isLt)⟩

/-- C1 (witness): a one-pixel red buffer under the default config
succeeds with all channels in range. -/
theorem extract_ok_channels_w :
    ∃ res, ExtractDominantColor ⟨[redPixel], 1, 1⟩ defaultConfig = .ok res ∧
      res.r ≤ 255 ∧ res.g ≤ 255 ∧ res.b ≤ 255 :=
  extract_ok_channels ⟨[redPixel], 1, 1⟩ defaultConfig (by decide) (by decide)

/-- C4: when selection yields a bucket, `ExtractDominantColor` returns
its midpoint expansion, that bucket occurs among the pixel bucket
keys, its count is maximal over all buckets, and on tied counts it is
the numerically smallest key. -/
theorem extract_selects_max_bucket (buf : PixelBuffer) (cfg : Config) (key : Nat)
    (hq : validBits cfg.quantizationBits = true)
    (hsel : selectBucket (keysOf cfg buf) = some key) :
    ExtractDominantColor buf cfg = .ok (expandKey cfg.quantizationBits key) ∧
    key ∈ keysOf cfg buf ∧
    (∀ k ∈ keysOf cfg buf,
      (keysOf cfg buf).count k ≤ (keysOf cfg buf).count key) ∧
    (∀ k ∈ keysOf cfg buf,
      (keysOf cfg buf).count k = (keysOf cfg buf).count key → key ≤ k) := by
  refine ⟨extract_eq_ok hq hsel, selectBucket_mem hsel, ?_, ?_⟩
  · intro k hk
    have h := selectBucket_best hsel k hk
    unfold bestLE at h
    omega
  · intro k hk he
    have h := selectBucket_best hsel k hk
    unfold bestLE at h
    omega

/-- C4 (witness): in the red/blue scenario the selected bucket key
31744 (red's bucket) occurs among the pixel bucket keys. -/
theorem extract_selects_max_bucket_w :
    (31744 : Nat) ∈ keysOf defaultConfig
      ⟨[redPixel, redPixel, redPixel, bluePixel], 4, 1⟩ :=
  (extract_selects_max_bucket ⟨[redPixel, redPixel, redPixel, bluePixel], 4, 1⟩
    defaultConfig 31744 (by decide) (by decide)).2.1

/-- C5 (counterexample): as stated, the claim fails: a uniform
non-empty buffer whose color has alpha 0, under the valid config
`⟨5, 1⟩`, returns no color at all — the call fails with
`EmptyInputError`. -/
theorem extract_uniform_cex :
    (∀ p ∈ (PixelBuffer.mk [⟨10, 20, 30, 0⟩] 1 1).pixels,
      p = (⟨10, 20, 30, 0⟩ : Pixel)) ∧
    (PixelBuffer.mk [⟨10, 20, 30, 0⟩] 1 1).pixels ≠ [] ∧
    validBits (Config.mk 5 1).quantizationBits = true ∧
    ExtractDominantColor ⟨[⟨10, 20, 30, 0⟩], 1, 1⟩ ⟨5, 1⟩
      = .error .EmptyInputError := by
  decide

/-- C5 (amended): for every non-empty uniform buffer of color C whose
pixels are not excluded by the alpha filter, and any valid config,
`ExtractDominantColor` returns the midpoint of C's bucket: each
returned channel differs from C's channel by less than one
quantization step. -/
theorem extract_uniform (C : Pixel) (buf : PixelBuffer) (cfg : Config)
    (hq : validBits cfg.quantizationBits = true)
    (hne : buf.pixels ≠ [])
    (hall : ∀ p ∈ buf.pixels, p = C)
    (ha : cfg.ignoreAlphaBelow ≤ C.a.val) :
    ∃ res, ExtractDominantColor buf cfg = .ok res ∧
      Nat.dist res.r C.r.val < 2 ^ (8 - cfg.quantizationBits) ∧
      Nat.dist res.g C.g.val < 2 ^ (8 - cfg.quantizationBits) ∧
      Nat.dist res.b C.b.val < 2 ^ (8 - cfg.quantizationBits) := by
  have hq8 : cfg.quantizationBits ≤ 8 := (validBits_iff.mp hq).2
  have hfilter : buf.pixels.filter (eligible cfg) = buf.pixels := by
    rw [List.filter_eq_self]
    intro p hp
    rw [hall p hp]
    simp [eligible, ha]
  have hkeys : keysOf cfg buf
      = buf.pixels.map (bucketKey cfg.quantizationBits) := by
    unfold keysOf
    rw [hfilter]
  have hkall : ∀ x ∈ keysOf cfg buf, x = bucketKey cfg.quantizationBits C := by
    rw [hkeys]
    intro x hx
    obtain ⟨p, hp, hpx⟩ := List.mem_map.mp hx
    rw [← hpx, hall p hp]
  have hkne : keysOf cfg buf ≠ [] := by
    rw [hkeys]
    simpa [List.map_eq_nil_iff] using hne
  have hdedup : (keysOf cfg buf).dedup = [bucketKey cfg.quantizationBits C] :=
    nodup_all_eq_singleton (List.nodup_dedup _)
      (fun h => hkne ((List.dedup_eq_nil _).mp h))
      (fun x hx => hkall x (List.mem_dedup.mp hx))
  have hsel : selectBucket (keysOf cfg buf)
      = some (bucketKey cfg.quantizationBits C) := by
    unfold selectBucket
    rw [hdedup]
    rfl
  refine ⟨expandKey cfg.quantizationBits (bucketKey cfg.quantizationBits C),
    extract_eq_ok hq hsel, ?_, ?_, ?_⟩ <;>
  rw [expandKey_bucketKey hq8 C]
  · exact midpoint_quantize_dist _ _
  · exact midpoint_quantize_dist _ _
  · exact midpoint_quantize_dist _ _

/-- C5 (witness): a uniform opaque buffer of color (10,20,30) under
config ⟨5,0⟩ returns a color within one quantization step (8) of it
per channel. -/
theorem extract_uniform_w :
    ∃ res, ExtractDominantColor ⟨[⟨10, 20, 30, 255⟩], 1, 1⟩ ⟨5, 0⟩ = .ok res ∧
      Nat.dist res.r (Pixel.mk 10 20 30 255).r.val < 2 ^ (8 - (5 : Nat)) ∧
      Nat.dist res.g (Pixel.mk 10 20 30 255).g.val < 2 ^ (8 - (5 : Nat)) ∧
      Nat.dist res.b (Pixel.mk 10 20 30 255).b.val < 2 ^ (8 - (5 : Nat)) :=
  extract_uniform ⟨10, 20, 30, 255⟩ ⟨[⟨10, 20, 30, 255⟩], 1, 1⟩ ⟨5, 0⟩
    (by decide) (by decide) (by decide) (by decide)

end DominantColor
